import Mathlib

/-!
Shallow embedding of the avatar application's core logic:

* `src/renderer/src/hooks/canvas/use-live2d-model-pixi.ts`
  - `playRandomMotion` (weighted motion selection, here `pickWeighted`)
  - `getMergedMotionGroup` (merge-on-fallback weight averaging)
  - `handleTapMotion` (hit-area to motion-group resolution)
  - `setupModelInteractions` (drag/tap pointer state machine)
  - `loadModel` (model load with in-flight guard and failure recovery)
* `src/renderer/src/hooks/utils/use-audio-task.ts`
  - `handleAudioPlayback` (speech task execution: side effects + resolution)
  - `addAudioTask` (enqueue guard on the interrupted state)

JavaScript objects with string keys iterate in insertion order; they are
embedded as association lists (`List (String × _)`) whose list order is the
object's key insertion order.  JavaScript numbers are embedded as exact
rationals `ℚ`; the only numeric operations used by the embedded code are
field operations and comparisons.
-/

/-- A motion group: motion name → weight, in insertion order.
(`MotionWeightMap` in `use-live2d-model-pixi.ts`.) -/
abbrev MotionWeightMap := List (String × ℚ)

/-- `TapMotionMap`: hit-area name → motion group, in insertion order. -/
abbrev TapMotionMap := List (String × MotionWeightMap)

/-- First-match key lookup, the embedding of a JavaScript property access
`obj[key]` on an object represented as an association list. -/
def lookupKey {α : Type} (k : String) : List (String × α) → Option α
  | [] => none
  | p :: rest => if p.1 = k then some p.2 else lookupKey k rest

/-- The key list of an association list (`Object.keys`). -/
def keysOf {α : Type} (l : List (String × α)) : List String :=
  l.map Prod.fst

/-- `totalWeight`: the sum of all weights in the group
(`Object.values(motionGroup).reduce((sum, weight) => sum + weight, 0)`). -/
def totalWeight (g : MotionWeightMap) : ℚ :=
  (g.map Prod.snd).sum

/-- The scanning loop of `playRandomMotion`:
`Object.entries(motionGroup).find(([motion, weight]) => { random -= weight; if (random <= 0) ... })`.
`r` is the current value of the mutable `random` variable. -/
def scanPick : ℚ → MotionWeightMap → Option String
  | _, [] => none
  | r, (m, w) :: rest => if r - w ≤ 0 then some m else scanPick (r - w) rest

/-- The selection made by `playRandomMotion` for a given uniform draw
`r = Math.random() ∈ [0,1)`: returns `none` (plays nothing) on an empty
group, otherwise scans with initial remainder `r * totalWeight`. -/
def pickWeighted (r : ℚ) (g : MotionWeightMap) : Option String :=
  if g.isEmpty then none
  else scanPick (r * totalWeight g) g

/-- One step of the accumulator update inside `getMergedMotionGroup`:
`if (!acc[motion]) acc[motion] = {total: 0, count: 0}; acc[motion].total += weight; acc[motion].count += 1`.
Keys are unique in the JavaScript accumulator object; an existing key is
updated in place, a new key is appended (insertion order). -/
def updateAcc : List (String × ℚ × ℕ) → String → ℚ → List (String × ℚ × ℕ)
  | [], m, w => [(m, w, 1)]
  | p :: rest, m, w =>
      if p.1 = m then (p.1, p.2.1 + w, p.2.2 + 1) :: rest
      else p :: updateAcc rest m w

/-- `getMergedMotionGroup`: flat-map all entries of all groups, fold them
into a `motion → {total, count}` accumulator, then map to `total / count`. -/
def getMergedMotionGroup (tapMotions : TapMotionMap) : MotionWeightMap :=
  let entries := (tapMotions.map Prod.snd).flatten
  let acc := entries.foldl (fun a p => updateAcc a p.1 p.2) []
  acc.map (fun p => (p.1, p.2.1 / (p.2.2 : ℚ)))

/-- The `hitAreas.find` loop of `handleTapMotion`: the first hit area with a
configured motion group, together with its name — `find` returns the *area
string* itself, which becomes `foundMotion`.  (An empty configured group is
an object, hence truthy in JavaScript, so it still counts as found.) -/
def findTapArea (tapMotions : TapMotionMap) :
    List String → Option (String × MotionWeightMap)
  | [] => none
  | a :: rest =>
      match lookupKey a tapMotions with
      | some g => some (a, g)
      | none => findTapArea tapMotions rest

/-- `handleTapMotion` with `modelInfo.tapMotions` present (`tapMotions`; the
guard `if (!modelInfo?.tapMotions) return` is the `none` case of
`resolveTapMotion`).  The result is the trace of selections made by the
successive `playRandomMotion` calls, each with its own `Math.random()` draw
(`r1` for the first call, `r2` for a second).  The find loop plays from the
first hit area's configured group; then the fallback guard tests
`!foundMotion && Object.keys(tapMotions).length > 0`, where `foundMotion`
is the found *area string*: it is falsy not only when no area matched but
also when the matching area is named `""`, in which case the merged group
additionally plays. -/
def handleTapMotion (r1 r2 : ℚ) (tapMotions : TapMotionMap)
    (hitAreas : List String) : List (Option String) :=
  match findTapArea tapMotions hitAreas with
  | some (a, g) =>
      if a = "" ∧ (keysOf tapMotions).length > 0 then
        [pickWeighted r1 g, pickWeighted r2 (getMergedMotionGroup tapMotions)]
      else [pickWeighted r1 g]
  | none =>
      if (keysOf tapMotions).length > 0 then
        [pickWeighted r1 (getMergedMotionGroup tapMotions)]
      else []

/-- Tap resolution as seen from the pointerup handler: `modelInfo.tapMotions`
may be absent (`undefined`), in which case nothing is played. -/
def resolveTapMotion (r1 r2 : ℚ) (tapMotions : Option TapMotionMap)
    (hitAreas : List String) : List (Option String) :=
  match tapMotions with
  | none => []
  | some tm => handleTapMotion r1 r2 tm hitAreas

/-! ### Drag/tap pointer state machine (`setupModelInteractions`) -/

/-- The closure state of `setupModelInteractions` together with the model's
position (`model.x`, `model.y`), which the handlers read and write. -/
structure DragState where
  dragging : Bool
  pointerX : ℚ
  pointerY : ℚ
  isTap : Bool
  modelX : ℚ
  modelY : ℚ
deriving DecidableEq, Repr

/-- The fixed `dragThreshold` (5 pixels). -/
def dragThreshold : ℚ := 5

/-- `pointerdown` handler: on the primary button (`e.button === 0`) start a
drag, tentatively a tap, and record the pointer offset from the model. -/
def onPointerDown (button : ℕ) (gx gy : ℚ) (s : DragState) : DragState :=
  if button = 0 then
    { s with dragging := true, isTap := true,
             pointerX := gx - s.modelX, pointerY := gy - s.modelY }
  else s

/-- `pointermove` handler: while dragging, move the model to pointer minus
offset; clear `isTap` when this event's displacement exceeds the threshold.
`Math.hypot(dx, dy) > 5` over the reals is equivalent to
`dx² + dy² > 25`, which is how the comparison is embedded in `ℚ`. -/
def onPointerMove (gx gy : ℚ) (s : DragState) : DragState :=
  if s.dragging then
    let newX := gx - s.pointerX
    let newY := gy - s.pointerY
    let dx := newX - s.modelX
    let dy := newY - s.modelY
    let tap := if dx ^ 2 + dy ^ 2 > dragThreshold ^ 2 then false else s.isTap
    { s with isTap := tap, modelX := newX, modelY := newY }
  else s

/-- `pointerup` handler: end the drag; the returned flag is whether
`handleTapMotion` is invoked (tap motion fires). -/
def onPointerUp (s : DragState) : DragState × Bool :=
  if s.dragging then ({ s with dragging := false }, s.isTap)
  else (s, false)

/-- `pointerupoutside` handler: cancel the drag, never firing the tap. -/
def onPointerUpOutside (s : DragState) : DragState :=
  { s with dragging := false }

/-- Process a sequence of `pointermove` events (global pointer positions). -/
def runMoves (s : DragState) : List (ℚ × ℚ) → DragState
  | [] => s
  | p :: rest => runMoves (onPointerMove p.1 p.2 s) rest

/-- One pointermove step is within the drag threshold: the squared distance
between consecutive global pointer positions is at most `5²`. -/
def stepWithinThreshold (a b : ℚ × ℚ) : Prop :=
  (b.1 - a.1) ^ 2 + (b.2 - a.2) ^ 2 ≤ dragThreshold ^ 2

instance : DecidablePred (fun p : (ℚ × ℚ) × ℚ × ℚ => stepWithinThreshold p.1 p.2) :=
  fun _ => by unfold stepWithinThreshold; infer_instance

instance (a b : ℚ × ℚ) : Decidable (stepWithinThreshold a b) := by
  unfold stepWithinThreshold; infer_instance

/-! ### Speech task execution (`use-audio-task.ts`) -/

/-- The `DisplayText` payload (`text`, `name`, `avatar`). -/
structure DisplayText where
  text : String
  name : String
  avatar : String
deriving DecidableEq, Repr

/-- `AudioTaskOptions`. `audioBase64 = ""` embeds a falsy (absent) audio
payload; `forwarded` embeds `forwarded?: boolean` with `undefined ↦ false`
(only its truthiness is read); `expressions` is the optional array whose
first element, when present, is applied. -/
structure AudioTaskOptions where
  audioBase64 : String
  volumes : List ℚ
  sliceLength : ℚ
  displayText : Option DisplayText
  expressions : Option (List String)
  forwarded : Bool
deriving DecidableEq, Repr

/-- Observable side effects of `handleAudioPlayback`, in program order:
calls on the chat-history, subtitle, websocket, toaster and model
collaborators. -/
inductive Effect where
  | appendResponse (text : String)
  | appendAIMessage (text speaker avatar : String)
  | setSubtitle (text : String)
  | sendAudioPlayStart (dt : DisplayText)
  | setExpression (e : String)
  | speak (audio : String)
  | toastError
deriving DecidableEq, Repr

/-- How the asynchronous playback environment behaves for one task:
`finish` — `model.speak` returns and later calls `onFinish`;
`error` — `model.speak` returns and later calls `onError`;
`syncThrow` — the `model.speak` call itself throws synchronously,
landing in the `catch` block. -/
inductive PlaybackBehavior where
  | finish
  | error
  | syncThrow
deriving DecidableEq, Repr

/-- How the promise returned by `handleAudioPlayback` ends up. -/
inductive TaskOutcome where
  | resolved
  | rejected
deriving DecidableEq, Repr

/-- The environment a task executes in: the conversation state string
(`aiState`), whether `window.live2dModel` is set, and the playback
behavior. -/
structure PlaybackEnv where
  aiState : String
  modelPresent : Bool
  behavior : PlaybackBehavior
deriving DecidableEq, Repr

/-- The "Update display text" block (lines 66–80): chat history always,
subtitle only when audio is present, the `audio-play-start` message only
when not forwarded — all only when `displayText` is present. -/
def displayTextEffects (opts : AudioTaskOptions) : List Effect :=
  match opts.displayText with
  | none => []
  | some dt =>
      [Effect.appendResponse dt.text,
       Effect.appendAIMessage dt.text dt.name dt.avatar]
      ++ (if opts.audioBase64 ≠ "" then [Effect.setSubtitle dt.text] else [])
      ++ (if opts.forwarded then [] else [Effect.sendAudioPlayStart dt])

/-- The `try` block (lines 90–133): apply the expression when the array has
a first element, then start lip-synced playback when audio is present; a
synchronous throw is caught and surfaced as an error toast. -/
def tryBlockEffects (behavior : PlaybackBehavior) (opts : AudioTaskOptions) :
    List Effect :=
  let exprEffects :=
    match opts.expressions.bind List.head? with
    | some e => [Effect.setExpression e]
    | none => []
  match behavior with
  | .syncThrow => exprEffects ++ [Effect.toastError]
  | _ =>
      exprEffects ++
        (if opts.audioBase64 ≠ "" then [Effect.speak opts.audioBase64] else [])

/-- `handleAudioPlayback`: the ordered side effects of executing one speech
task, and how its promise settles.  Every code path calls `resolve` —
the interrupted guard, the missing-model guard, the no-audio branch, the
`onFinish` and `onError` callbacks, and the `catch` block. -/
def handleAudioPlayback (env : PlaybackEnv) (opts : AudioTaskOptions) :
    List Effect × TaskOutcome :=
  if env.aiState = "interrupted" then ([], .resolved)
  else
    let de := displayTextEffects opts
    if ¬ env.modelPresent then (de, .resolved)
    else (de ++ tryBlockEffects env.behavior opts, .resolved)

/-- `addAudioTask`: the task handed to `audioTaskQueue.addTask`, or `none`
when the interrupted guard drops it without enqueueing. -/
def addAudioTask (aiState : String) (opts : AudioTaskOptions) :
    Option AudioTaskOptions :=
  if aiState = "interrupted" then none else some opts

/-! ### Model loading (`loadModel`) -/

/-- The state `loadModel` reads and writes: the in-flight flag
(`loadingRef`), the context loading flag (`setIsLoading`), the attached
model handle (`modelRef` / stage child), readiness (`isModelReady`), and
whether the PIXI app and a model URL are available. -/
structure LoadState where
  loading : Bool
  isLoading : Bool
  attachedModel : Option ℕ
  modelReady : Bool
  appPresent : Bool
  urlPresent : Bool
deriving DecidableEq, Repr

/-- `loadModel`, with the awaited `Live2DModel.from` result supplied as
`result` (`.ok h` a fresh handle, `.error ()` a rejection).  On success
`setupModel` replaces any previous handle and marks ready; on failure only
the `finally` block runs (both flags cleared).  The guards return with no
state change. -/
def loadModel (s : LoadState) (result : Except Unit ℕ) : LoadState :=
  if ¬ s.urlPresent ∨ ¬ s.appPresent then s
  else if s.loading then s
  else
    match result with
    | .ok h =>
        { s with loading := false, isLoading := false,
                 attachedModel := some h, modelReady := true }
    | .error _ =>
        { s with loading := false, isLoading := false }

/-! ### Lemmas about `scanPick` -/

theorem scanPick_mem : ∀ (g : MotionWeightMap) (r : ℚ) (m : String),
    scanPick r g = some m → m ∈ keysOf g := by
  intro g
  induction g with
  | nil => intro r m h; simp [scanPick] at h
  | cons p rest ih =>
      intro r m h
      obtain ⟨k, w⟩ := p
      by_cases hc : r - w ≤ 0
      · rw [scanPick, if_pos hc] at h
        obtain rfl : k = m := by exact Option.some.inj h
        simp [keysOf]
      · rw [scanPick, if_neg hc] at h
        have := ih (r - w) m h
        simp only [keysOf, List.map_cons, List.mem_cons]
        exact Or.inr this

theorem scanPick_isSome : ∀ (g : MotionWeightMap) (r : ℚ),
    g ≠ [] → r ≤ totalWeight g → ∃ m, scanPick r g = some m := by
  intro g
  induction g with
  | nil => intro r h _; exact absurd rfl h
  | cons p rest ih =>
      intro r _ hr
      obtain ⟨k, w⟩ := p
      by_cases hc : r - w ≤ 0
      · exact ⟨k, by rw [scanPick, if_pos hc]⟩
      · push_neg at hc
        cases rest with
        | nil =>
            exfalso
            simp only [totalWeight, List.map_cons, List.map_nil,
              List.sum_cons, List.sum_nil, add_zero] at hr
            linarith
        | cons q t =>
            have hr' : r - w ≤ totalWeight (q :: t) := by
              simp only [totalWeight, List.map_cons, List.sum_cons] at hr ⊢
              linarith
            obtain ⟨m, hm⟩ := ih (r - w) (by simp) hr'
            exact ⟨m, by rw [scanPick, if_neg (not_le.mpr hc)]; exact hm⟩

/-- **C1** (amended): `pickWeighted` on the empty group selects nothing; on a
group with total weight `W > 0` and a uniform draw `r ∈ [0,1)` it selects a
key of the group; but on a non-empty group with non-negative weights whose
total weight is 0 it selects the *first* key (not none as claimed): the
initial remainder `r·0 = 0` already satisfies `0 - w ≤ 0` at the first
entry. -/
theorem pickWeighted_selection (r : ℚ) (g : MotionWeightMap)
    (h0 : 0 ≤ r) (h1 : r < 1) :
    pickWeighted r [] = none
    ∧ (0 < totalWeight g → ∃ m ∈ keysOf g, pickWeighted r g = some m)
    ∧ (∀ m w tl, g = (m, w) :: tl → 0 ≤ w → totalWeight g = 0 →
        pickWeighted r g = some m) := by
  refine ⟨rfl, ?_, ?_⟩
  · intro hW
    have hne : g ≠ [] := by
      intro h
      rw [h] at hW
      simp [totalWeight] at hW
    have hle : r * totalWeight g ≤ totalWeight g := by nlinarith
    obtain ⟨m, hm⟩ := scanPick_isSome g (r * totalWeight g) hne hle
    obtain ⟨p, t, rfl⟩ := List.exists_cons_of_ne_nil hne
    exact ⟨m, scanPick_mem _ _ m hm, by simpa [pickWeighted] using hm⟩
  · intro m w tl hg hw hW
    subst hg
    simp only [pickWeighted, List.isEmpty_cons, Bool.false_eq_true,
      if_false, hW, mul_zero, scanPick]
    rw [if_pos (by linarith)]

/-- Witness for `pickWeighted_selection` at `r = 1/2`, `g = [("a", 1)]`. -/
theorem pickWeighted_selection_witness :
    (0:ℚ) ≤ 1/2 ∧ (1/2:ℚ) < 1 ∧
    (pickWeighted (1/2) [] = none
     ∧ (0 < totalWeight [("a", (1:ℚ))] →
         ∃ m ∈ keysOf [("a", (1:ℚ))], pickWeighted (1/2) [("a", (1:ℚ))] = some m)
     ∧ (∀ m w tl, [("a", (1:ℚ))] = (m, w) :: tl → 0 ≤ w →
         totalWeight [("a", (1:ℚ))] = 0 →
         pickWeighted (1/2) [("a", (1:ℚ))] = some m)) :=
  ⟨by norm_num, by norm_num,
   pickWeighted_selection (1/2) [("a", 1)] (by norm_num) (by norm_num)⟩

/-- **C1** (counterexample): on the non-empty group `{a: 0}` of total
weight 0, `pickWeighted` (at the draw `r = 1/2`, and in fact at any draw)
selects `"a"` rather than selecting no motion as the claim states. -/
theorem pickWeighted_zero_total_counterexample :
    totalWeight [("a", (0:ℚ))] = 0 ∧ ([("a", (0:ℚ))] : MotionWeightMap) ≠ []
    ∧ pickWeighted (1/2) [("a", (0:ℚ))] = some "a" := by
  refine ⟨by norm_num [totalWeight], by simp, ?_⟩
  norm_num [pickWeighted, scanPick, totalWeight]

/-! ### Lemmas about `getMergedMotionGroup` -/

/-- The weights of `m`'s occurrences among a list of (motion, weight)
entries, in order. -/
def occWeights (m : String) (es : List (String × ℚ)) : List ℚ :=
  (es.filter (fun p => p.1 = m)).map Prod.snd

theorem occWeights_nil (m : String) : occWeights m [] = [] := rfl

theorem occWeights_cons_self (m : String) (e : String × ℚ) (es : List (String × ℚ))
    (h : e.1 = m) : occWeights m (e :: es) = e.2 :: occWeights m es := by
  simp [occWeights, List.filter_cons, h]

theorem occWeights_cons_other (m : String) (e : String × ℚ) (es : List (String × ℚ))
    (h : ¬ e.1 = m) : occWeights m (e :: es) = occWeights m es := by
  simp [occWeights, List.filter_cons, h]

theorem occWeights_append (m : String) (l₁ l₂ : List (String × ℚ)) :
    occWeights m (l₁ ++ l₂) = occWeights m l₁ ++ occWeights m l₂ := by
  simp [occWeights, List.filter_append]

theorem lookupKey_updateAcc_self : ∀ (acc : List (String × ℚ × ℕ)) (m : String) (w : ℚ),
    lookupKey m (updateAcc acc m w) =
      some (match lookupKey m acc with
            | some tc => (tc.1 + w, tc.2 + 1)
            | none => (w, 1)) := by
  intro acc
  induction acc with
  | nil => intro m w; simp [updateAcc, lookupKey]
  | cons p rest ih =>
      intro m w
      by_cases hc : p.1 = m
      · simp [updateAcc, lookupKey, hc]
      · simp [updateAcc, lookupKey, hc, ih]

theorem lookupKey_updateAcc_other : ∀ (acc : List (String × ℚ × ℕ)) (k m : String) (w : ℚ),
    k ≠ m → lookupKey k (updateAcc acc m w) = lookupKey k acc := by
  intro acc
  induction acc with
  | nil => intro k m w hkm; simp [updateAcc, lookupKey, Ne.symm hkm]
  | cons p rest ih =>
      intro k m w hkm
      by_cases hc : p.1 = m
      · simp [updateAcc, lookupKey, hc, Ne.symm hkm]
      · by_cases hk : p.1 = k
        · simp [updateAcc, lookupKey, hc, hk, hkm]
        · simp [updateAcc, lookupKey, hc, hk, ih _ _ _ hkm]

/-- The accumulator fold of `getMergedMotionGroup`, named for the lemmas. -/
def accFold (acc : List (String × ℚ × ℕ)) (es : List (String × ℚ)) :
    List (String × ℚ × ℕ) :=
  es.foldl (fun a p => updateAcc a p.1 p.2) acc

theorem accFold_lookup_some : ∀ (es : List (String × ℚ))
    (acc : List (String × ℚ × ℕ)) (m : String) (tc : ℚ × ℕ),
    lookupKey m acc = some tc →
    lookupKey m (accFold acc es) =
      some (tc.1 + (occWeights m es).sum, tc.2 + (occWeights m es).length) := by
  intro es
  induction es with
  | nil => intro acc m tc h; simp [accFold, occWeights, h]
  | cons e es ih =>
      intro acc m tc h
      have hstep : accFold acc (e :: es) = accFold (updateAcc acc e.1 e.2) es := rfl
      by_cases hc : e.1 = m
      · have h1 : lookupKey m (updateAcc acc e.1 e.2) = some (tc.1 + e.2, tc.2 + 1) := by
          rw [hc, lookupKey_updateAcc_self, h]
        rw [hstep, ih _ m _ h1, occWeights_cons_self m e es hc]
        simp only [List.sum_cons, List.length_cons, Option.some.injEq, Prod.mk.injEq]
        constructor
        · ring
        · omega
      · have h1 : lookupKey m (updateAcc acc e.1 e.2) = some tc := by
          rw [lookupKey_updateAcc_other acc m e.1 e.2 (fun hmc => hc hmc.symm), h]
        rw [hstep, ih _ m _ h1, occWeights_cons_other m e es hc]

theorem accFold_lookup_none : ∀ (es : List (String × ℚ))
    (acc : List (String × ℚ × ℕ)) (m : String),
    lookupKey m acc = none →
    lookupKey m (accFold acc es) =
      if occWeights m es = [] then none
      else some ((occWeights m es).sum, (occWeights m es).length) := by
  intro es
  induction es with
  | nil => intro acc m h; simp [accFold, occWeights, h]
  | cons e es ih =>
      intro acc m h
      have hstep : accFold acc (e :: es) = accFold (updateAcc acc e.1 e.2) es := rfl
      by_cases hc : e.1 = m
      · have h1 : lookupKey m (updateAcc acc e.1 e.2) = some (e.2, 1) := by
          rw [hc, lookupKey_updateAcc_self, h]
        rw [hstep, accFold_lookup_some es _ m _ h1, occWeights_cons_self m e es hc]
        simp [add_comm]
      · have h1 : lookupKey m (updateAcc acc e.1 e.2) = none := by
          rw [lookupKey_updateAcc_other acc m e.1 e.2 (fun hmc => hc hmc.symm), h]
        rw [hstep, ih _ m h1, occWeights_cons_other m e es hc]

theorem lookupKey_map_snd {α β : Type} (f : α → β) (m : String) :
    ∀ l : List (String × α),
    lookupKey m (l.map (fun p => (p.1, f p.2))) = (lookupKey m l).map f := by
  intro l
  induction l with
  | nil => simp [lookupKey]
  | cons p rest ih =>
      by_cases hc : p.1 = m
      · simp [lookupKey, hc]
      · simp [lookupKey, hc, ih]

/-- Characterization of a lookup in the merged group, in terms of the `m`
occurrences among the flattened entries. -/
theorem getMergedMotionGroup_lookup (t : TapMotionMap) (m : String) :
    lookupKey m (getMergedMotionGroup t) =
      if occWeights m ((t.map Prod.snd).flatten) = [] then none
      else some ((occWeights m ((t.map Prod.snd).flatten)).sum
                 / ((occWeights m ((t.map Prod.snd).flatten)).length : ℚ)) := by
  have h := accFold_lookup_none ((t.map Prod.snd).flatten) [] m (by simp [lookupKey])
  have hmap := lookupKey_map_snd (fun tc : ℚ × ℕ => tc.1 / (tc.2 : ℚ)) m
      (accFold [] ((t.map Prod.snd).flatten))
  have hdef : getMergedMotionGroup t =
      (accFold [] ((t.map Prod.snd).flatten)).map (fun p => (p.1, p.2.1 / (p.2.2 : ℚ))) := rfl
  rw [hdef, hmap, h]
  by_cases hocc : occWeights m ((t.map Prod.snd).flatten) = [] <;> simp [hocc]

theorem mem_keysOf_iff_lookup_isSome (m : String) :
    ∀ l : List (String × ℚ), m ∈ keysOf l ↔ (lookupKey m l).isSome := by
  intro l
  induction l with
  | nil => simp [keysOf, lookupKey]
  | cons p rest ih =>
      by_cases hc : p.1 = m
      · simp [keysOf, lookupKey, hc]
      · simpa [keysOf, lookupKey, hc, Ne.symm hc] using ih

theorem occWeights_eq_nil_of_not_mem (m : String) :
    ∀ g : List (String × ℚ), m ∉ keysOf g → occWeights m g = [] := by
  intro g
  induction g with
  | nil => intro _; rfl
  | cons p rest ih =>
      intro hm
      simp only [keysOf, List.map_cons, List.mem_cons, not_or] at hm
      rw [occWeights_cons_other m p rest (fun h => hm.1 h.symm)]
      exact ih hm.2

/-- On a group with no duplicate keys, the occurrences of `m` are exactly
its looked-up weight (if any). -/
theorem occWeights_of_nodup (m : String) :
    ∀ g : List (String × ℚ), (keysOf g).Nodup →
    occWeights m g = (lookupKey m g).elim [] (fun w => [w]) := by
  intro g
  induction g with
  | nil => intro _; rfl
  | cons p rest ih =>
      intro hnd
      simp only [keysOf, List.map_cons, List.nodup_cons] at hnd
      by_cases hc : p.1 = m
      · rw [occWeights_cons_self m p rest hc,
            occWeights_eq_nil_of_not_mem m rest (hc ▸ hnd.1)]
        simp [lookupKey, hc]
      · rw [occWeights_cons_other m p rest hc]
        simpa [lookupKey, hc] using ih hnd.2

/-- The groups of `tapMotions` that contain the motion `m`. -/
def groupsContaining (m : String) (t : TapMotionMap) : List MotionWeightMap :=
  (t.map Prod.snd).filter (fun g => (lookupKey m g).isSome)

/-- With per-group unique keys, the occurrences of `m` among all flattened
entries are exactly its weights in the groups that contain it, in order. -/
theorem occWeights_flatten_eq (m : String) :
    ∀ t : TapMotionMap, (∀ p ∈ t, (keysOf p.2).Nodup) →
    occWeights m ((t.map Prod.snd).flatten) =
      (groupsContaining m t).map (fun g => (lookupKey m g).getD 0) := by
  intro t
  induction t with
  | nil => intro _; rfl
  | cons p rest ih =>
      intro hnd
      have hp : (keysOf p.2).Nodup := hnd p (by simp)
      have hrest : ∀ q ∈ rest, (keysOf q.2).Nodup := fun q hq => hnd q (by simp [hq])
      rw [List.map_cons, List.flatten_cons, occWeights_append,
          occWeights_of_nodup m p.2 hp]
      rcases hlk : lookupKey m p.2 with _ | w
      · simp only [Option.elim, List.nil_append]
        rw [ih hrest]
        simp [groupsContaining, List.filter_cons, hlk]
      · simp only [Option.elim, List.singleton_append]
        rw [ih hrest]
        simp [groupsContaining, List.filter_cons, hlk]

theorem groupsContaining_ne_nil_iff (m : String) :
    ∀ t : TapMotionMap, groupsContaining m t ≠ [] ↔ ∃ p ∈ t, m ∈ keysOf p.2 := by
  intro t
  induction t with
  | nil => simp [groupsContaining]
  | cons p rest ih =>
      rcases hlk : lookupKey m p.2 with _ | w
      · have hmem : m ∉ keysOf p.2 := by
          rw [mem_keysOf_iff_lookup_isSome, hlk]
          simp
        simp only [groupsContaining, List.map_cons, List.filter_cons, hlk] at *
        simpa [hmem] using ih
      · have hmem : m ∈ keysOf p.2 := by
          rw [mem_keysOf_iff_lookup_isSome, hlk]
          rfl
        simp only [groupsContaining, List.map_cons, List.filter_cons, hlk] at *
        simp [hmem]

/-- **C4**: for a `TapMotionMap` whose groups each have unique motion names,
the merged group's key set is the union of the groups' key sets, and each
motion is mapped to the arithmetic mean of its weight over exactly the
groups that contain it (sum of those weights divided by their number). -/
theorem getMergedMotionGroup_mean (t : TapMotionMap) (hne : t ≠ [])
    (hnd : ∀ p ∈ t, (keysOf p.2).Nodup) (m : String) :
    (m ∈ keysOf (getMergedMotionGroup t) ↔ ∃ p ∈ t, m ∈ keysOf p.2)
    ∧ (groupsContaining m t = [] → lookupKey m (getMergedMotionGroup t) = none)
    ∧ (groupsContaining m t ≠ [] →
        lookupKey m (getMergedMotionGroup t) =
          some (((groupsContaining m t).map (fun g => (lookupKey m g).getD 0)).sum
                / ((groupsContaining m t).length : ℚ))) := by
  have hlook := getMergedMotionGroup_lookup t m
  rw [occWeights_flatten_eq m t hnd] at hlook
  by_cases hgc : groupsContaining m t = []
  · rw [hgc] at hlook
    simp only [List.map_nil, if_pos rfl] at hlook
    refine ⟨?_, fun _ => hlook, fun hch => absurd hgc hch⟩
    rw [mem_keysOf_iff_lookup_isSome, hlook, ← groupsContaining_ne_nil_iff m t]
    simp [hgc]
  · have hmapne : (groupsContaining m t).map (fun g => (lookupKey m g).getD 0) ≠ [] := by
      cases hgc' : groupsContaining m t with
      | nil => exact absurd hgc' hgc
      | cons a l => simp
    rw [if_neg hmapne, List.length_map] at hlook
    refine ⟨?_, fun h => absurd h hgc, fun _ => hlook⟩
    rw [mem_keysOf_iff_lookup_isSome, hlook]
    simpa using (groupsContaining_ne_nil_iff m t).mp hgc

/-- Witness for `getMergedMotionGroup_mean` on the one-group map
`{head: {waveA: 1}}` at the motion `"waveA"`. -/
theorem getMergedMotionGroup_mean_witness :
    ("waveA" ∈ keysOf (getMergedMotionGroup [("head", [("waveA", (1:ℚ))])]) ↔
      ∃ p ∈ [("head", [("waveA", (1:ℚ))])], "waveA" ∈ keysOf p.2)
    ∧ (groupsContaining "waveA" [("head", [("waveA", (1:ℚ))])] = [] →
        lookupKey "waveA" (getMergedMotionGroup [("head", [("waveA", (1:ℚ))])]) = none)
    ∧ (groupsContaining "waveA" [("head", [("waveA", (1:ℚ))])] ≠ [] →
        lookupKey "waveA" (getMergedMotionGroup [("head", [("waveA", (1:ℚ))])]) =
          some (((groupsContaining "waveA" [("head", [("waveA", (1:ℚ))])]).map
                   (fun g => (lookupKey "waveA" g).getD 0)).sum
                / ((groupsContaining "waveA" [("head", [("waveA", (1:ℚ))])]).length : ℚ))) :=
  getMergedMotionGroup_mean [("head", [("waveA", (1:ℚ))])] (by simp)
    (by intro p hp; simp only [List.mem_singleton] at hp; subst hp; simp [keysOf])
    "waveA"

/-- The spec's merge example: `tapMotions = {head: {wave:1, nod:1}, body: {wave:3}}`. -/
def tapMotionsEx : TapMotionMap :=
  [("head", [("wave", 1), ("nod", 1)]), ("body", [("wave", 3)])]

/-- **C2** (counterexample): on the example map, the merged group maps
`nod` to `1` (its weight averaged over the single group containing it),
not to `1/2` as the claim states. -/
theorem merged_example_nod_counterexample :
    lookupKey "nod" (getMergedMotionGroup tapMotionsEx) = some 1
    ∧ lookupKey "nod" (getMergedMotionGroup tapMotionsEx) ≠ some (1/2 : ℚ) := by
  constructor
  · simp [getMergedMotionGroup, tapMotionsEx, updateAcc, lookupKey]
  · simp [getMergedMotionGroup, tapMotionsEx, updateAcc, lookupKey]

/-- **C2** (amended): the merged fallback group of
`{head: {wave:1, nod:1}, body: {wave:3}}` is exactly
`{wave: (1+3)/2 = 2, nod: 1/1 = 1}`: each motion's weight is averaged over
the groups that contain it only. -/
theorem merged_example_value :
    getMergedMotionGroup tapMotionsEx = [("wave", 2), ("nod", 1)] := by
  simp [getMergedMotionGroup, tapMotionsEx, updateAcc]
  norm_num

/-! ### Lemmas about `handleTapMotion` -/

theorem findTapArea_all_none (tm : TapMotionMap) :
    ∀ areas : List String, (∀ a ∈ areas, lookupKey a tm = none) →
    findTapArea tm areas = none := by
  intro areas
  induction areas with
  | nil => intro _; rfl
  | cons a rest ih =>
      intro h
      have ha := h a (by simp)
      have hrest := ih (fun b hb => h b (by simp [hb]))
      simp [findTapArea, ha, hrest]

theorem findTapArea_first (tm : TapMotionMap) (a : String) (g : MotionWeightMap)
    (post : List String) :
    ∀ pre : List String, (∀ b ∈ pre, lookupKey b tm = none) →
    lookupKey a tm = some g →
    findTapArea tm (pre ++ a :: post) = some (a, g) := by
  intro pre
  induction pre with
  | nil => intro _ ha; simp [findTapArea, ha]
  | cons b rest ih =>
      intro h ha
      have hb := h b (by simp)
      have hrest := ih (fun c hc => h c (by simp [hc])) ha
      simp [findTapArea, hb, hrest]

theorem keysOf_length_pos_of_lookup (tm : TapMotionMap) (a : String)
    (g : MotionWeightMap) (h : lookupKey a tm = some g) :
    (keysOf tm).length > 0 := by
  cases tm with
  | nil => exact absurd h (by simp [lookupKey])
  | cons p rest => simp [keysOf]

/-- **C5** (counterexample): with `tapMotions = {"": {waveA: 1}, body: {nodB: 1}}`
and the hit-test yielding the configured area `""`, the find loop plays
from that area's group *and* the merged fallback also plays (here selecting
a motion that is not even in the first area's group): `find` returns the
matching *area string* `""`, which is falsy, so `!foundMotion` is true and
the fallback guard passes — contradicting the claim that resolution selects
(only) within the group of the first configured area. -/
theorem empty_area_name_double_play_counterexample :
    resolveTapMotion (1/2) (3/4)
        (some [("", [("waveA", (1:ℚ))]), ("body", [("nodB", (1:ℚ))])]) [""]
      = [pickWeighted (1/2) [("waveA", (1:ℚ))],
         pickWeighted (3/4) (getMergedMotionGroup
           [("", [("waveA", (1:ℚ))]), ("body", [("nodB", (1:ℚ))])])]
    ∧ resolveTapMotion (1/2) (3/4)
        (some [("", [("waveA", (1:ℚ))]), ("body", [("nodB", (1:ℚ))])]) [""]
      = [some "waveA", some "nodB"] := by
  constructor
  · simp [resolveTapMotion, handleTapMotion, findTapArea, lookupKey, keysOf]
  · simp [resolveTapMotion, handleTapMotion, findTapArea, lookupKey, keysOf,
      getMergedMotionGroup, updateAcc]
    norm_num [pickWeighted, scanPick, totalWeight]

/-- **C5** (amended): tap resolution scans the hit areas in hit-test order
and weighted-selects within the group of the first area that has a
configured motion group, ignoring later areas — *except* that when this
first area's name is the empty string (a falsy `foundMotion`), the merged
fallback group additionally plays after it; when no area has a configured
group it selects from the merged fallback group if `tapMotions` is
non-empty; and it selects nothing if `tapMotions` is empty (or absent). -/
theorem resolveTapMotion_first_match (r1 r2 : ℚ) (tm : TapMotionMap)
    (hitAreas pre post : List String) (a : String) (g : MotionWeightMap) :
    (resolveTapMotion r1 r2 none hitAreas = [])
    ∧ (tm = [] → resolveTapMotion r1 r2 (some tm) hitAreas = [])
    ∧ (hitAreas = pre ++ a :: post → (∀ b ∈ pre, lookupKey b tm = none) →
        lookupKey a tm = some g → a ≠ "" →
        resolveTapMotion r1 r2 (some tm) hitAreas = [pickWeighted r1 g])
    ∧ (hitAreas = pre ++ a :: post → (∀ b ∈ pre, lookupKey b tm = none) →
        lookupKey a tm = some g → a = "" →
        resolveTapMotion r1 r2 (some tm) hitAreas
          = [pickWeighted r1 g, pickWeighted r2 (getMergedMotionGroup tm)])
    ∧ ((∀ b ∈ hitAreas, lookupKey b tm = none) → tm ≠ [] →
        resolveTapMotion r1 r2 (some tm) hitAreas
          = [pickWeighted r1 (getMergedMotionGroup tm)]) := by
  refine ⟨rfl, ?_, ?_, ?_, ?_⟩
  · intro htm
    subst htm
    have hnone : findTapArea [] hitAreas = none :=
      findTapArea_all_none [] hitAreas (fun b _ => rfl)
    simp [resolveTapMotion, handleTapMotion, hnone, keysOf]
  · intro hsplit hpre ha hne
    subst hsplit
    have hfind := findTapArea_first tm a g post pre hpre ha
    simp [resolveTapMotion, handleTapMotion, hfind, hne]
  · intro hsplit hpre ha hempty
    subst hsplit
    subst hempty
    have hfind := findTapArea_first tm "" g post pre hpre ha
    have hlen := keysOf_length_pos_of_lookup tm "" g ha
    simp [resolveTapMotion, handleTapMotion, hfind, hlen]
  · intro hnone hne
    have hfind := findTapArea_all_none tm hitAreas hnone
    have hlen : (keysOf tm).length > 0 := by
      cases tm with
      | nil => exact absurd rfl hne
      | cons p rest => simp [keysOf]
    simp [resolveTapMotion, handleTapMotion, hfind, hlen]

/-- Witness for `resolveTapMotion_first_match`: with
`tapMotions = {head: {waveA: 1}}`, hit-area order `["body", "head"]`
selects only from the `head` group (first configured area, non-empty name,
`body` ignored); the empty map selects nothing; a miss on all areas
(`["arm"]`) falls back to the merged group. -/
theorem resolveTapMotion_first_match_witness :
    resolveTapMotion (1/2) (3/4) (some [("head", [("waveA", (1:ℚ))])])
        ["body", "head"] = [pickWeighted (1/2) [("waveA", (1:ℚ))]]
    ∧ resolveTapMotion (1/2) (3/4) (some ([] : TapMotionMap)) ["body"] = []
    ∧ resolveTapMotion (1/2) (3/4) (some [("head", [("waveA", (1:ℚ))])]) ["arm"] =
        [pickWeighted (1/2) (getMergedMotionGroup [("head", [("waveA", (1:ℚ))])])] :=
  ⟨(resolveTapMotion_first_match (1/2) (3/4) [("head", [("waveA", (1:ℚ))])]
      ["body", "head"] ["body"] [] "head" [("waveA", (1:ℚ))]).2.2.1 rfl
      (by intro b hb; simp only [List.mem_singleton] at hb; subst hb
          simp [lookupKey])
      (by simp [lookupKey])
      (by simp),
   (resolveTapMotion_first_match (1/2) (3/4) ([] : TapMotionMap)
      ["body"] [] [] "" []).2.1 rfl,
   (resolveTapMotion_first_match (1/2) (3/4) [("head", [("waveA", (1:ℚ))])]
      ["arm"] [] [] "" []).2.2.2.2
      (by intro b hb; simp only [List.mem_singleton] at hb; subst hb
          simp [lookupKey])
      (by simp)⟩

/-! ### Lemmas about the drag state machine -/

theorem runMoves_invariant : ∀ (ps : List (ℚ × ℚ)) (s : DragState) (a : ℚ × ℚ),
    s.dragging = true → s.modelX = a.1 - s.pointerX → s.modelY = a.2 - s.pointerY →
    (runMoves s ps).dragging = true
    ∧ (runMoves s ps).isTap
        = (s.isTap && decide (List.Chain stepWithinThreshold a ps)) := by
  intro ps
  induction ps with
  | nil =>
      intro s a hd _ _
      simp [runMoves, hd, List.Chain.nil]
  | cons p rest ih =>
      intro s a hd hx hy
      have hstep : runMoves s (p :: rest) = runMoves (onPointerMove p.1 p.2 s) rest := rfl
      set s' := onPointerMove p.1 p.2 s with hs'
      have hs'fields : s'.dragging = true ∧ s'.pointerX = s.pointerX
          ∧ s'.pointerY = s.pointerY
          ∧ s'.modelX = p.1 - s.pointerX ∧ s'.modelY = p.2 - s.pointerY
          ∧ s'.isTap = (s.isTap && decide (stepWithinThreshold a p)) := by
        rw [hs']
        unfold onPointerMove
        rw [if_pos hd]
        refine ⟨hd, rfl, rfl, rfl, rfl, ?_⟩
        have hdx : p.1 - s.pointerX - s.modelX = p.1 - a.1 := by rw [hx]; ring
        have hdy : p.2 - s.pointerY - s.modelY = p.2 - a.2 := by rw [hy]; ring
        simp only [hdx, hdy, stepWithinThreshold]
        by_cases hth : (p.1 - a.1) ^ 2 + (p.2 - a.2) ^ 2 > dragThreshold ^ 2
        · rw [if_pos hth]
          have : ¬((p.1 - a.1) ^ 2 + (p.2 - a.2) ^ 2 ≤ dragThreshold ^ 2) :=
            not_le.mpr hth
          simp [this]
        · rw [if_neg hth]
          have : (p.1 - a.1) ^ 2 + (p.2 - a.2) ^ 2 ≤ dragThreshold ^ 2 :=
            not_lt.mp hth
          simp [this]
      obtain ⟨hd', hpx', hpy', hmx', hmy', htap'⟩ := hs'fields
      have hih := ih s' p hd' (by rw [hmx', hpx']) (by rw [hmy', hpy'])
      rw [hstep, hih.2, htap']
      refine ⟨hih.1, ?_⟩
      have hdec : decide (List.Chain stepWithinThreshold a (p :: rest))
          = (decide (stepWithinThreshold a p)
             && decide (List.Chain stepWithinThreshold p rest)) := by
        by_cases h1 : stepWithinThreshold a p <;>
          by_cases h2 : List.Chain stepWithinThreshold p rest <;>
            simp [List.chain_cons, h1, h2]
      rw [hdec, Bool.and_assoc]

/-- **C3** (amended): in a drag started by a primary-button pointerdown at
global position `(dx0, dy0)` and ended by pointerup, the tap motion fires
iff `isTap` survives, and `isTap` survives iff every single `pointermove`
step stays within the 5px threshold — the displacement test compares each
move against the model position set by the *previous* event, not against
the position at drag start. -/
theorem drag_tap_fires_iff_steps_small (s0 : DragState) (dx0 dy0 : ℚ)
    (ps : List (ℚ × ℚ)) :
    (onPointerUp (runMoves (onPointerDown 0 dx0 dy0 s0) ps)).2 = true
      ↔ List.Chain stepWithinThreshold (dx0, dy0) ps := by
  set s1 := onPointerDown 0 dx0 dy0 s0 with hs1
  have hfields : s1.dragging = true ∧ s1.isTap = true
      ∧ s1.pointerX = dx0 - s0.modelX ∧ s1.pointerY = dy0 - s0.modelY
      ∧ s1.modelX = s0.modelX ∧ s1.modelY = s0.modelY := by
    rw [hs1]; unfold onPointerDown
    rw [if_pos rfl]
    exact ⟨rfl, rfl, rfl, rfl, rfl, rfl⟩
  obtain ⟨hd, htap, hpx, hpy, hmx, hmy⟩ := hfields
  have hinv := runMoves_invariant ps s1 (dx0, dy0) hd
    (by rw [hmx, hpx]; ring) (by rw [hmy, hpy]; ring)
  unfold onPointerUp
  rw [if_pos hinv.1]
  simp only [hinv.2, htap, Bool.true_and]
  exact decide_eq_true_iff

/-- **C3** (counterexample): pointerdown at `(100,100)` with the model at
the origin, then pointermoves to `(104,100)` and `(108,100)` — two steps of
4px each, a cumulative displacement of 8px > 5px — still fires the tap
motion on pointerup, because each individual step passes the threshold
test; the claimed cumulative-displacement clearing does not happen. -/
theorem drag_cumulative_displacement_counterexample :
    (onPointerUp (runMoves
        (onPointerDown 0 100 100 ⟨false, 0, 0, false, 0, 0⟩)
        [(104, 100), (108, 100)])).2 = true
    ∧ ((108 : ℚ) - 100) ^ 2 + ((100 : ℚ) - 100) ^ 2 > dragThreshold ^ 2 := by
  constructor
  · norm_num [runMoves, onPointerDown, onPointerMove, onPointerUp, dragThreshold]
  · norm_num [dragThreshold]

/-! ### Lemmas about `handleAudioPlayback` -/

theorem displayTextEffects_speak_not_mem (opts : AudioTaskOptions) :
    ∀ a, Effect.speak a ∉ displayTextEffects opts := by
  intro a
  unfold displayTextEffects
  rcases opts.displayText with _ | dt
  · simp
  · by_cases haud : opts.audioBase64 ≠ "" <;>
      by_cases hfwd : opts.forwarded <;> simp [haud, hfwd]

theorem displayTextEffects_setExpression_not_mem (opts : AudioTaskOptions) :
    ∀ e, Effect.setExpression e ∉ displayTextEffects opts := by
  intro e
  unfold displayTextEffects
  rcases opts.displayText with _ | dt
  · simp
  · by_cases haud : opts.audioBase64 ≠ "" <;>
      by_cases hfwd : opts.forwarded <;> simp [haud, hfwd]

theorem displayTextEffects_mem_of_some (opts : AudioTaskOptions) (dt : DisplayText)
    (h : opts.displayText = some dt) :
    Effect.appendResponse dt.text ∈ displayTextEffects opts
    ∧ Effect.appendAIMessage dt.text dt.name dt.avatar ∈ displayTextEffects opts
    ∧ (Effect.setSubtitle dt.text ∈ displayTextEffects opts ↔ opts.audioBase64 ≠ "")
    ∧ (Effect.sendAudioPlayStart dt ∈ displayTextEffects opts ↔ opts.forwarded = false) := by
  unfold displayTextEffects
  rw [h]
  by_cases haud : opts.audioBase64 = "" <;>
    by_cases hfwd : opts.forwarded <;> simp [haud, hfwd]

theorem displayTextEffects_count_send (opts : AudioTaskOptions) (dt : DisplayText)
    (h : opts.displayText = some dt) :
    (displayTextEffects opts).count (Effect.sendAudioPlayStart dt)
      = if opts.forwarded then 0 else 1 := by
  unfold displayTextEffects
  rw [h]
  by_cases haud : opts.audioBase64 = "" <;>
    by_cases hfwd : opts.forwarded <;>
      simp [haud, hfwd, List.count_append, List.count_cons]

theorem tryBlockEffects_count_send (b : PlaybackBehavior) (opts : AudioTaskOptions)
    (dt : DisplayText) :
    (tryBlockEffects b opts).count (Effect.sendAudioPlayStart dt) = 0 := by
  unfold tryBlockEffects
  rcases hex : opts.expressions.bind List.head? with _ | e <;>
    cases b <;>
      by_cases haud : opts.audioBase64 = "" <;>
        simp [haud, List.count_append, List.count_cons]

/-- **C7**: the promise returned by `handleAudioPlayback` always resolves —
under normal completion, under an asynchronous `onError` callback, and
under a synchronous playback-setup exception alike — so the task queue can
keep advancing. -/
theorem handleAudioPlayback_always_resolves (env : PlaybackEnv)
    (opts : AudioTaskOptions) :
    (handleAudioPlayback env opts).2 = TaskOutcome.resolved := by
  unfold handleAudioPlayback
  by_cases h1 : env.aiState = "interrupted" <;>
    by_cases h2 : env.modelPresent <;> simp [h1, h2]

/-- **C8**: in the `"interrupted"` conversation state, `addAudioTask` hands
nothing to the queue, and a task whose execution starts in that state
resolves immediately with an empty effect trace — no chat-history or
subtitle mutation, no outbound message, no expression change, no playback. -/
theorem interrupted_task_dropped (env : PlaybackEnv) (opts : AudioTaskOptions)
    (h : env.aiState = "interrupted") :
    handleAudioPlayback env opts = ([], TaskOutcome.resolved)
    ∧ addAudioTask env.aiState opts = none := by
  constructor
  · unfold handleAudioPlayback
    rw [if_pos h]
  · unfold addAudioTask
    rw [if_pos h]

/-- Witness for `interrupted_task_dropped` on a concrete task. -/
theorem interrupted_task_dropped_witness :
    handleAudioPlayback ⟨"interrupted", true, PlaybackBehavior.finish⟩
        ⟨"QUJD", [1], 20, some ⟨"hello", "AI", "ava"⟩, some ["joy"], false⟩
      = ([], TaskOutcome.resolved)
    ∧ addAudioTask "interrupted"
        ⟨"QUJD", [1], 20, some ⟨"hello", "AI", "ava"⟩, some ["joy"], false⟩ = none :=
  interrupted_task_dropped ⟨"interrupted", true, PlaybackBehavior.finish⟩
    ⟨"QUJD", [1], 20, some ⟨"hello", "AI", "ava"⟩, some ["joy"], false⟩ rfl

/-- **C6** (counterexample): a task carrying display text but no audio
(`audioBase64 = ""`), executed in a non-interrupted state with a model
present, appends to the chat history but never pushes the text to the
subtitle collaborator — the subtitle update is gated on the audio payload,
contradicting the claim that display text is pushed to both. -/
theorem subtitle_requires_audio_counterexample :
    (⟨"", [], 0, some ⟨"hello", "AI", "ava"⟩, none, false⟩
        : AudioTaskOptions).displayText = some ⟨"hello", "AI", "ava"⟩
    ∧ Effect.appendResponse "hello" ∈
        (handleAudioPlayback ⟨"idle", true, PlaybackBehavior.finish⟩
          ⟨"", [], 0, some ⟨"hello", "AI", "ava"⟩, none, false⟩).1
    ∧ Effect.setSubtitle "hello" ∉
        (handleAudioPlayback ⟨"idle", true, PlaybackBehavior.finish⟩
          ⟨"", [], 0, some ⟨"hello", "AI", "ava"⟩, none, false⟩).1 := by
  refine ⟨rfl, ?_, ?_⟩ <;>
    simp [handleAudioPlayback, displayTextEffects, tryBlockEffects]

/-- **C6** (amended): for a task with display text executed in a
non-interrupted state, the chat-history effects always precede any playback
(`speak`) effect, the subtitle push also precedes playback but happens
exactly when the task carries audio, and the `audio-play-start` message is
emitted exactly once when the task is not forwarded and never when it is. -/
theorem display_text_before_playback (env : PlaybackEnv) (opts : AudioTaskOptions)
    (dt : DisplayText) (hstate : env.aiState ≠ "interrupted")
    (hdt : opts.displayText = some dt) :
    ∃ rest, (handleAudioPlayback env opts).1 = displayTextEffects opts ++ rest
    ∧ (∀ a, Effect.speak a ∉ displayTextEffects opts)
    ∧ Effect.appendResponse dt.text ∈ displayTextEffects opts
    ∧ Effect.appendAIMessage dt.text dt.name dt.avatar ∈ displayTextEffects opts
    ∧ (Effect.setSubtitle dt.text ∈ displayTextEffects opts ↔ opts.audioBase64 ≠ "")
    ∧ ((handleAudioPlayback env opts).1.count (Effect.sendAudioPlayStart dt)
        = if opts.forwarded then 0 else 1) := by
  have hmem := displayTextEffects_mem_of_some opts dt hdt
  have hcount := displayTextEffects_count_send opts dt hdt
  by_cases hm : env.modelPresent
  · refine ⟨tryBlockEffects env.behavior opts, ?_, displayTextEffects_speak_not_mem opts,
      hmem.1, hmem.2.1, hmem.2.2.1, ?_⟩
    · unfold handleAudioPlayback
      rw [if_neg hstate]
      simp [hm]
    · unfold handleAudioPlayback
      rw [if_neg hstate]
      simp only [hm, not_true_eq_false, if_false, List.count_append]
      rw [hcount, tryBlockEffects_count_send]
      by_cases hfwd : opts.forwarded <;> simp [hfwd]
  · refine ⟨[], ?_, displayTextEffects_speak_not_mem opts,
      hmem.1, hmem.2.1, hmem.2.2.1, ?_⟩
    · unfold handleAudioPlayback
      rw [if_neg hstate]
      simp [hm]
    · unfold handleAudioPlayback
      rw [if_neg hstate]
      simp only [hm, not_false_eq_true, if_true]
      exact hcount

/-- Witness for `display_text_before_playback` on a concrete task with
audio, display text, and `forwarded = false`. -/
theorem display_text_before_playback_witness :
    (⟨"idle", true, PlaybackBehavior.finish⟩ : PlaybackEnv).aiState ≠ "interrupted"
    ∧ (∃ rest,
        (handleAudioPlayback ⟨"idle", true, PlaybackBehavior.finish⟩
            ⟨"QUJD", [1], 20, some ⟨"hi", "AI", "ava"⟩, none, false⟩).1
          = displayTextEffects ⟨"QUJD", [1], 20, some ⟨"hi", "AI", "ava"⟩, none, false⟩
              ++ rest
        ∧ (∀ a, Effect.speak a ∉
            displayTextEffects ⟨"QUJD", [1], 20, some ⟨"hi", "AI", "ava"⟩, none, false⟩)
        ∧ Effect.appendResponse "hi" ∈
            displayTextEffects ⟨"QUJD", [1], 20, some ⟨"hi", "AI", "ava"⟩, none, false⟩
        ∧ Effect.appendAIMessage "hi" "AI" "ava" ∈
            displayTextEffects ⟨"QUJD", [1], 20, some ⟨"hi", "AI", "ava"⟩, none, false⟩
        ∧ (Effect.setSubtitle "hi" ∈
            displayTextEffects ⟨"QUJD", [1], 20, some ⟨"hi", "AI", "ava"⟩, none, false⟩
            ↔ (⟨"QUJD", [1], 20, some ⟨"hi", "AI", "ava"⟩, none, false⟩
                : AudioTaskOptions).audioBase64 ≠ "")
        ∧ ((handleAudioPlayback ⟨"idle", true, PlaybackBehavior.finish⟩
              ⟨"QUJD", [1], 20, some ⟨"hi", "AI", "ava"⟩, none, false⟩).1.count
                (Effect.sendAudioPlayStart ⟨"hi", "AI", "ava"⟩)
            = if (⟨"QUJD", [1], 20, some ⟨"hi", "AI", "ava"⟩, none, false⟩
                  : AudioTaskOptions).forwarded then 0 else 1)) :=
  ⟨by simp, display_text_before_playback ⟨"idle", true, PlaybackBehavior.finish⟩
    ⟨"QUJD", [1], 20, some ⟨"hi", "AI", "ava"⟩, none, false⟩ ⟨"hi", "AI", "ava"⟩
    (by simp) rfl⟩

/-- **C10**: when no model handle is exposed (`window.live2dModel` absent)
and the state is not interrupted, `handleAudioPlayback` resolves with
exactly the display-text side effects — the chat-history append, the
subtitle update (when the task carries audio), and the `audio-play-start`
message (when not forwarded) all happen before the missing-model check —
and no expression or lip-sync (`speak`) call is made. -/
theorem no_model_resolves_with_display_effects (env : PlaybackEnv)
    (opts : AudioTaskOptions) (hm : env.modelPresent = false)
    (hstate : env.aiState ≠ "interrupted") :
    handleAudioPlayback env opts = (displayTextEffects opts, TaskOutcome.resolved)
    ∧ (∀ e, Effect.setExpression e ∉ (handleAudioPlayback env opts).1)
    ∧ (∀ a, Effect.speak a ∉ (handleAudioPlayback env opts).1)
    ∧ (∀ dt, opts.displayText = some dt →
        Effect.appendResponse dt.text ∈ (handleAudioPlayback env opts).1
        ∧ Effect.appendAIMessage dt.text dt.name dt.avatar ∈ (handleAudioPlayback env opts).1
        ∧ (Effect.setSubtitle dt.text ∈ (handleAudioPlayback env opts).1
            ↔ opts.audioBase64 ≠ "")
        ∧ (Effect.sendAudioPlayStart dt ∈ (handleAudioPlayback env opts).1
            ↔ opts.forwarded = false)) := by
  have heq : handleAudioPlayback env opts = (displayTextEffects opts, TaskOutcome.resolved) := by
    unfold handleAudioPlayback
    rw [if_neg hstate]
    simp [hm]
  rw [heq]
  refine ⟨rfl, displayTextEffects_setExpression_not_mem opts,
    displayTextEffects_speak_not_mem opts, ?_⟩
  intro dt hdt
  exact displayTextEffects_mem_of_some opts dt hdt

/-- Witness for `no_model_resolves_with_display_effects` on a concrete
task with audio and display text, with the model handle absent. -/
theorem no_model_resolves_witness :
    handleAudioPlayback ⟨"thinking", false, PlaybackBehavior.finish⟩
        ⟨"QUJD", [1], 20, some ⟨"hey", "AI", "ava"⟩, none, false⟩
      = (displayTextEffects ⟨"QUJD", [1], 20, some ⟨"hey", "AI", "ava"⟩, none, false⟩,
         TaskOutcome.resolved)
    ∧ (∀ e, Effect.setExpression e ∉
        (handleAudioPlayback ⟨"thinking", false, PlaybackBehavior.finish⟩
          ⟨"QUJD", [1], 20, some ⟨"hey", "AI", "ava"⟩, none, false⟩).1)
    ∧ (∀ a, Effect.speak a ∉
        (handleAudioPlayback ⟨"thinking", false, PlaybackBehavior.finish⟩
          ⟨"QUJD", [1], 20, some ⟨"hey", "AI", "ava"⟩, none, false⟩).1)
    ∧ (∀ dt, (⟨"QUJD", [1], 20, some ⟨"hey", "AI", "ava"⟩, none, false⟩
          : AudioTaskOptions).displayText = some dt →
        Effect.appendResponse dt.text ∈
          (handleAudioPlayback ⟨"thinking", false, PlaybackBehavior.finish⟩
            ⟨"QUJD", [1], 20, some ⟨"hey", "AI", "ava"⟩, none, false⟩).1
        ∧ Effect.appendAIMessage dt.text dt.name dt.avatar ∈
          (handleAudioPlayback ⟨"thinking", false, PlaybackBehavior.finish⟩
            ⟨"QUJD", [1], 20, some ⟨"hey", "AI", "ava"⟩, none, false⟩).1
        ∧ (Effect.setSubtitle dt.text ∈
            (handleAudioPlayback ⟨"thinking", false, PlaybackBehavior.finish⟩
              ⟨"QUJD", [1], 20, some ⟨"hey", "AI", "ava"⟩, none, false⟩).1
            ↔ (⟨"QUJD", [1], 20, some ⟨"hey", "AI", "ava"⟩, none, false⟩
                : AudioTaskOptions).audioBase64 ≠ "")
        ∧ (Effect.sendAudioPlayStart dt ∈
            (handleAudioPlayback ⟨"thinking", false, PlaybackBehavior.finish⟩
              ⟨"QUJD", [1], 20, some ⟨"hey", "AI", "ava"⟩, none, false⟩).1
            ↔ (⟨"QUJD", [1], 20, some ⟨"hey", "AI", "ava"⟩, none, false⟩
                : AudioTaskOptions).forwarded = false)) :=
  no_model_resolves_with_display_effects
    ⟨"thinking", false, PlaybackBehavior.finish⟩
    ⟨"QUJD", [1], 20, some ⟨"hey", "AI", "ava"⟩, none, false⟩ rfl (by simp)

/-- **C9**: a `loadModel` call while a load is in flight is a no-op leaving
all state unchanged; and when the model loader rejects, `loadModel`
recovers locally — the in-flight and loading flags are cleared while the
attached handle and the readiness state are left untouched (no new handle
attached, readiness never set to true).  `loadModel` is a total function of
the loader's outcome: the rejection is absorbed, never propagated. -/
theorem loadModel_guard_and_failure (s : LoadState) (result : Except Unit ℕ) :
    (s.loading = true → loadModel s result = s)
    ∧ (s.urlPresent = true → s.appPresent = true → s.loading = false →
        result = Except.error () →
        (loadModel s result).loading = false
        ∧ (loadModel s result).isLoading = false
        ∧ (loadModel s result).attachedModel = s.attachedModel
        ∧ (loadModel s result).modelReady = s.modelReady) := by
  constructor
  · intro hl
    unfold loadModel
    by_cases hg : ¬ s.urlPresent ∨ ¬ s.appPresent
    · rw [if_pos hg]
    · rw [if_neg hg, if_pos hl]
  · intro hu ha hl hr
    unfold loadModel
    rw [if_neg (by simp [hu, ha]), hr]
    simp [hl]

/-- Witness for `loadModel_guard_and_failure`: an in-flight call is a
no-op, and a failed load on an idle state only clears the flags. -/
theorem loadModel_guard_and_failure_witness :
    (loadModel ⟨true, true, some 7, true, true, true⟩ (Except.error ())
      = ⟨true, true, some 7, true, true, true⟩)
    ∧ ((loadModel ⟨false, false, some 7, true, true, true⟩ (Except.error ())).loading = false
       ∧ (loadModel ⟨false, false, some 7, true, true, true⟩ (Except.error ())).isLoading = false
       ∧ (loadModel ⟨false, false, some 7, true, true, true⟩ (Except.error ())).attachedModel
           = (⟨false, false, some 7, true, true, true⟩ : LoadState).attachedModel
       ∧ (loadModel ⟨false, false, some 7, true, true, true⟩ (Except.error ())).modelReady
           = (⟨false, false, some 7, true, true, true⟩ : LoadState).modelReady) :=
  ⟨(loadModel_guard_and_failure ⟨true, true, some 7, true, true, true⟩
      (Except.error ())).1 rfl,
   (loadModel_guard_and_failure ⟨false, false, some 7, true, true, true⟩
      (Except.error ())).2 rfl rfl rfl rfl⟩
